import Mathlib

/-!
Verification of the Scene Edit Store of the 3d-room-designer repository.

The store lives in `src/src/RoomDesignerApp.jsx` as a Zustand store
(`useStore`): a list of placed objects, a nullable selection, and two
stacks of whole-scene snapshots for undo/redo.  The JavaScript code is
embedded shallowly below:

  * a placed object (`Obj`) is a record of the fields the application
    creates in `handleAddFromLib`: `id`, `name`, `category`, `size`,
    `position`, `rotation`, `color`, `meta`;
  * a patch (`Patch`) carries an optional value per field; the JS shallow
    merge `{...o, ...patch}` becomes `applyPatch`, which takes the patch
    value where present and the old field otherwise;
  * a snapshot is modelled as the object list itself: the JS code stores
    `JSON.stringify({objects})` and restores with `JSON.parse`, a
    round-trip that is the identity on the data involved;
  * each store method becomes a total function `StoreState → StoreState`.
    `pushUndo` is called by the mutating methods *after* their `set`, so
    it snapshots the post-mutation object list — this ordering is kept
    exactly as in the source.
-/

namespace RoomDesigner

/-- One placed furniture object, with the fields created in
`handleAddFromLib` of `RoomDesignerApp.jsx`.  Numeric fields use `ℚ`;
`meta` is an open-ended string mapping (`meta: {}` at creation). -/
structure Obj where
  id : String
  name : String
  category : String
  size : ℚ × ℚ × ℚ
  position : ℚ × ℚ × ℚ
  rotation : ℚ
  color : String
  meta : List (String × String)
deriving DecidableEq

/-- A shallow patch, as passed to `updateObject(id, patch)`.  A JS patch
object may carry any subset of the object's keys (including `id` and
`size` — the code does not restrict it), so every field is optional. -/
structure Patch where
  id : Option String := none
  name : Option String := none
  category : Option String := none
  size : Option (ℚ × ℚ × ℚ) := none
  position : Option (ℚ × ℚ × ℚ) := none
  rotation : Option ℚ := none
  color : Option String := none
  meta : Option (List (String × String)) := none
deriving DecidableEq

/-- The JS spread merge `{...o, ...patch}`: each field present in the
patch overrides the object's field, every absent field is kept. -/
def applyPatch (o : Obj) (p : Patch) : Obj :=
  { id := p.id.getD o.id
    name := p.name.getD o.name
    category := p.category.getD o.category
    size := p.size.getD o.size
    position := p.position.getD o.position
    rotation := p.rotation.getD o.rotation
    color := p.color.getD o.color
    meta := p.meta.getD o.meta }

/-- The Zustand store state: `objects`, `selectedId`, `undoStack`,
`redoStack`.  Snapshots (`JSON.stringify({objects})`) are modelled as the
object lists they serialize. -/
structure StoreState where
  objects : List Obj
  selectedId : Option String
  undoStack : List (List Obj)
  redoStack : List (List Obj)
deriving DecidableEq

/-- The store's initial state: empty scene, no selection, empty history. -/
def initialState : StoreState :=
  { objects := [], selectedId := none, undoStack := [], redoStack := [] }

/-- `pushUndo()`: snapshots the *current* object list onto `undoStack`
and clears `redoStack`. -/
def pushUndo (s : StoreState) : StoreState :=
  { s with undoStack := s.undoStack ++ [s.objects], redoStack := [] }

/-- `addObject(obj)`: appends `obj` to the object list, then calls
`pushUndo()` (which therefore snapshots the list already containing
`obj`). -/
def addObject (s : StoreState) (obj : Obj) : StoreState :=
  pushUndo { s with objects := s.objects ++ [obj] }

/-- `updateObject(id, patch)`: maps over the object list, shallow-merging
the patch into every object whose id matches, then calls `pushUndo()`. -/
def updateObject (s : StoreState) (tid : String) (p : Patch) : StoreState :=
  pushUndo { s with
    objects := s.objects.map (fun o => if o.id = tid then applyPatch o p else o) }

/-- `removeObject(id)`: filters the object out of the list and clears the
selection when it pointed at the removed id, then calls `pushUndo()`. -/
def removeObject (s : StoreState) (tid : String) : StoreState :=
  pushUndo { s with
    objects := s.objects.filter (fun o => o.id != tid)
    selectedId := if s.selectedId = some tid then none else s.selectedId }

/-- `select(id)`: sets `selectedId` unconditionally; no history. -/
def select (s : StoreState) (tid : Option String) : StoreState :=
  { s with selectedId := tid }

/-- `undo()`: no-op when `undoStack` is empty; otherwise pops the last
snapshot, pushes the current object list onto `redoStack`, restores the
object list from the popped snapshot and clears the selection. -/
def undo (s : StoreState) : StoreState :=
  if s.undoStack.isEmpty then s
  else
    { objects := (s.undoStack.getLast?).getD []
      selectedId := none
      undoStack := s.undoStack.dropLast
      redoStack := s.redoStack ++ [s.objects] }

/-- `redo()`: symmetric to `undo()` on `redoStack`. -/
def redo (s : StoreState) : StoreState :=
  if s.redoStack.isEmpty then s
  else
    { objects := (s.redoStack.getLast?).getD []
      selectedId := none
      undoStack := s.undoStack ++ [s.objects]
      redoStack := s.redoStack.dropLast }

/-- One store call, for reasoning about arbitrary operation sequences. -/
inductive Op where
  | add (o : Obj)
  | update (tid : String) (p : Patch)
  | remove (tid : String)
  | sel (tid : Option String)
  | undoOp
  | redoOp
deriving DecidableEq

/-- Apply one store call to a state. -/
def applyOp (s : StoreState) : Op → StoreState
  | Op.add o => addObject s o
  | Op.update tid p => updateObject s tid p
  | Op.remove tid => removeObject s tid
  | Op.sel tid => select s tid
  | Op.undoOp => undo s
  | Op.redoOp => redo s

/-- Run a sequence of store calls from the initial empty state. -/
def runOps (ops : List Op) : StoreState :=
  ops.foldl applyOp initialState

/-- The spec's selection invariant: `selectedId` is null or the id of an
object currently in the set. -/
def SelInv (s : StoreState) : Prop :=
  s.selectedId = none ∨ ∃ o ∈ s.objects, some o.id = s.selectedId

instance (s : StoreState) : Decidable (SelInv s) := by
  unfold SelInv; infer_instance

/-- The concrete object of the spec's Scenario A:
`{id:"a", position:[0,0.45,0], size:[2,0.9,0.9], ...}` (the remaining
fields are those `handleAddFromLib` fills for the "Sofa (2P)" preset). -/
def objA : Obj :=
  { id := "a", name := "Sofa (2P)", category := "Seating"
    size := (2, 9/10, 9/10), position := (0, 45/100, 0), rotation := 0
    color := "#8b5cf6", meta := [] }

/-- A second concrete object, with integer data, for counterexamples. -/
def objB : Obj :=
  { id := "b", name := "Armchair", category := "Seating"
    size := (1, 1, 1), position := (0, 0, 0), rotation := 0
    color := "#f97316", meta := [] }

/-! ### Basic behaviour of the history operations -/

theorem undo_pushUndo_objects (s : StoreState) :
    (undo (pushUndo s)).objects = s.objects := by
  simp [undo, pushUndo]

theorem undo_of_empty (s : StoreState) (h : s.undoStack = []) : undo s = s := by
  simp [undo, h]

theorem redo_of_empty (s : StoreState) (h : s.redoStack = []) : redo s = s := by
  simp [redo, h]

/-- C1: Lagged undo semantics: each mutating operation pushes its snapshot
after applying the update, so `undo` immediately after any mutation leaves
the object set of that mutation in place; in particular, starting from the
empty scene, `addObject objA` followed by `undo` leaves the object set
equal to `[objA]` (a no-visible-op), not the empty set. -/
theorem lagged_undo_semantics :
    (∀ (s : StoreState) (o : Obj),
      (undo (addObject s o)).objects = (addObject s o).objects)
    ∧ (∀ (s : StoreState) (tid : String) (p : Patch),
      (undo (updateObject s tid p)).objects = (updateObject s tid p).objects)
    ∧ (∀ (s : StoreState) (tid : String),
      (undo (removeObject s tid)).objects = (removeObject s tid).objects)
    ∧ (undo (addObject initialState objA)).objects = [objA] := by
  refine ⟨fun s o => ?_, fun s tid p => ?_, fun s tid => ?_, ?_⟩
  · rw [addObject, undo_pushUndo_objects]; rfl
  · rw [updateObject, undo_pushUndo_objects]; rfl
  · rw [removeObject, undo_pushUndo_objects]; rfl
  · rw [addObject, undo_pushUndo_objects]; rfl

/-- C3: History linearity: immediately after any call to `addObject`,
`updateObject` or `removeObject`, in any state, `redoStack` is empty and
`undoStack` has grown by exactly one snapshot. -/
theorem history_linearity (s : StoreState) (o : Obj) (tid : String) (p : Patch) :
    ((addObject s o).redoStack = []
      ∧ (addObject s o).undoStack.length = s.undoStack.length + 1)
    ∧ ((updateObject s tid p).redoStack = []
      ∧ (updateObject s tid p).undoStack.length = s.undoStack.length + 1)
    ∧ ((removeObject s tid).redoStack = []
      ∧ (removeObject s tid).undoStack.length = s.undoStack.length + 1) := by
  refine ⟨⟨rfl, ?_⟩, ⟨rfl, ?_⟩, ⟨rfl, ?_⟩⟩ <;>
    simp [addObject, updateObject, removeObject, pushUndo]

/-- C5: Empty-history no-op: when `undoStack` is empty, `undo` changes no
observable state; symmetrically, when `redoStack` is empty, `redo` changes
no observable state.  (Both are total Lean functions, mirroring the JS
early `return`: no error is possible.) -/
theorem empty_history_noop (s : StoreState) :
    (s.undoStack = [] → undo s = s) ∧ (s.redoStack = [] → redo s = s) :=
  ⟨undo_of_empty s, redo_of_empty s⟩

/-- Witness for C5 at the initial state. -/
theorem empty_history_noop_witness :
    undo initialState = initialState ∧ redo initialState = initialState :=
  ⟨(empty_history_noop initialState).1 rfl, (empty_history_noop initialState).2 rfl⟩

/-! ### Mutations on a missing id and the update frame condition -/

/-- C6: Missing-id tolerance: when no object in the set carries `tid`,
`updateObject tid p` and `removeObject tid` leave the object set unchanged
(same objects, same order, same field values).  Both are total Lean
functions, mirroring the exception-free JS code. -/
theorem update_objects_of_absent (s : StoreState) (tid : String) (p : Patch)
    (habs : ∀ o ∈ s.objects, o.id ≠ tid) :
    (updateObject s tid p).objects = s.objects := by
  have h1 : s.objects.map (fun o => if o.id = tid then applyPatch o p else o)
      = s.objects.map id := by
    apply List.map_congr_left
    intro a ha
    simp [habs a ha]
  simp only [updateObject, pushUndo]
  simpa using h1

theorem remove_objects_of_absent (s : StoreState) (tid : String)
    (habs : ∀ o ∈ s.objects, o.id ≠ tid) :
    (removeObject s tid).objects = s.objects := by
  simp only [removeObject, pushUndo]
  exact List.filter_eq_self.mpr (fun a ha => by simpa using habs a ha)

theorem missing_id_tolerance (s : StoreState) (tid : String) (p : Patch)
    (habs : ∀ o ∈ s.objects, o.id ≠ tid) :
    (updateObject s tid p).objects = s.objects
    ∧ (removeObject s tid).objects = s.objects :=
  ⟨update_objects_of_absent s tid p habs, remove_objects_of_absent s tid habs⟩

/-- Witness for C6: updating and removing the absent id "missing" on the
one-object scene `[objB]` leaves the set `[objB]`. -/
theorem missing_id_tolerance_witness :
    (updateObject { objects := [objB], selectedId := none, undoStack := [], redoStack := [] }
        "missing" { color := some "#000" }).objects = [objB]
    ∧ (removeObject { objects := [objB], selectedId := none, undoStack := [], redoStack := [] }
        "missing").objects = [objB] :=
  missing_id_tolerance
    { objects := [objB], selectedId := none, undoStack := [], redoStack := [] }
    "missing" { color := some "#000" } (by decide)

/-- C7: Update frame condition: `updateObject tid p` rewrites exactly the
objects whose id is `tid` to the shallow merge `applyPatch o p`, leaving
every other object untouched (pointwise, order and length preserved); the
merge keeps every field the patch does not name — `meta` included — and
sets every named field to the patch's value; concretely, patching the
color of `objA` yields `objA` with only `color` replaced. -/
theorem update_frame (s : StoreState) (tid : String) (p : Patch) :
    List.Forall₂
      (fun o o2 => (o.id ≠ tid → o2 = o) ∧ (o.id = tid → o2 = applyPatch o p))
      s.objects (updateObject s tid p).objects
    ∧ (∀ o : Obj,
        (p.id = none → (applyPatch o p).id = o.id)
        ∧ (p.name = none → (applyPatch o p).name = o.name)
        ∧ (p.category = none → (applyPatch o p).category = o.category)
        ∧ (p.size = none → (applyPatch o p).size = o.size)
        ∧ (p.position = none → (applyPatch o p).position = o.position)
        ∧ (p.rotation = none → (applyPatch o p).rotation = o.rotation)
        ∧ (p.color = none → (applyPatch o p).color = o.color)
        ∧ (p.meta = none → (applyPatch o p).meta = o.meta)
        ∧ (∀ v, p.color = some v → (applyPatch o p).color = v))
    ∧ (updateObject { objects := [objA], selectedId := none, undoStack := [], redoStack := [] }
        "a" { color := some "#ff0000" }).objects
      = [{ objA with color := "#ff0000" }] := by
  refine ⟨?_, ?_, rfl⟩
  · have h1 : (updateObject s tid p).objects
        = s.objects.map (fun o => if o.id = tid then applyPatch o p else o) := rfl
    rw [h1, List.forall₂_map_right_iff, List.forall₂_same]
    intro a _
    constructor
    · intro hne; simp [hne]
    · intro heq; simp [heq]
  · intro o
    refine ⟨fun h => ?_, fun h => ?_, fun h => ?_, fun h => ?_, fun h => ?_,
      fun h => ?_, fun h => ?_, fun h => ?_, fun v h => ?_⟩ <;>
      simp [applyPatch, h]

/-- Witness for C7: the frame implications discharged at concrete input —
a color-only patch keeps `objA`'s name and `meta`, and sets its color. -/
theorem update_frame_witness :
    (applyPatch objA { color := some "#000000" }).name = objA.name
    ∧ (applyPatch objA { color := some "#000000" }).meta = objA.meta
    ∧ (applyPatch objA { color := some "#000000" }).color = "#000000" :=
  ⟨((update_frame { objects := [objA], selectedId := none, undoStack := [], redoStack := [] }
      "a" { color := some "#000000" }).2.1 objA).2.1 rfl,
   ((update_frame { objects := [objA], selectedId := none, undoStack := [], redoStack := [] }
      "a" { color := some "#000000" }).2.1 objA).2.2.2.2.2.2.2.1 rfl,
   ((update_frame { objects := [objA], selectedId := none, undoStack := [], redoStack := [] }
      "a" { color := some "#000000" }).2.1 objA).2.2.2.2.2.2.2.2 "#000000" rfl⟩

/-! ### Sequences of additions -/

theorem foldl_addObject_objects (objs : List Obj) (s : StoreState) :
    (objs.foldl addObject s).objects = s.objects ++ objs := by
  induction objs generalizing s with
  | nil => simp
  | cons o rest ih =>
      rw [List.foldl_cons, ih]
      simp [addObject, pushUndo]

/-- C8: Uniqueness and insertion order: adding a sequence of objects with
pairwise-distinct ids to the empty scene yields an object set equal to
that sequence (insertion order), containing exactly one object per id. -/
theorem addObject_uniqueness_order (objs : List Obj)
    (h : (objs.map Obj.id).Nodup) :
    (runOps (objs.map Op.add)).objects = objs
    ∧ ∀ o ∈ objs,
        (runOps (objs.map Op.add)).objects.countP (fun o2 => o2.id == o.id) = 1 := by
  have hrun : (runOps (objs.map Op.add)).objects = objs := by
    rw [runOps, List.foldl_map]
    have : objs.foldl (fun s o => applyOp s (Op.add o)) initialState
        = objs.foldl addObject initialState := rfl
    rw [this, foldl_addObject_objects]
    rfl
  refine ⟨hrun, fun o ho => ?_⟩
  rw [hrun]
  have hmap : objs.countP (fun o2 => o2.id == o.id)
      = (objs.map Obj.id).count o.id := by
    rw [List.count, List.countP_map]
    rfl
  rw [hmap]
  exact List.count_eq_one_of_mem h (List.mem_map_of_mem Obj.id ho)

/-- Witness for C8: adding `objA` then `objB` (distinct ids) gives the set
`[objA, objB]` with exactly one object carrying id "a". -/
theorem addObject_uniqueness_order_witness :
    (runOps ([objA, objB].map Op.add)).objects = [objA, objB]
    ∧ (runOps ([objA, objB].map Op.add)).objects.countP
        (fun o2 => o2.id == objA.id) = 1 :=
  ⟨(addObject_uniqueness_order [objA, objB] (by decide)).1,
   (addObject_uniqueness_order [objA, objB] (by decide)).2 objA
     (List.mem_cons_self objA [objB])⟩

/-! ### The selection invariant

`select` stores any id without checking it against the object set, and
`updateObject` can rewrite an object's id (the patch may carry an `id`
key), so the spec's invariant fails for arbitrary call sequences.  It does
hold for the sequences the UI issues: `select` is only called with the id
of a clicked (hence present) object or `null`, and no UI patch carries
`id`.  `okOp` captures exactly those two guards. -/

/-- The guard under which one call keeps the selection invariant: `select`
receives `null` or the id of a currently present object, and update
patches do not carry an `id` key.  All other calls are unrestricted. -/
def okOp (s : StoreState) : Op → Prop
  | Op.update _ p => p.id = none
  | Op.sel (some tid) => ∃ o ∈ s.objects, o.id = tid
  | _ => True

/-- States reachable from the initial state by guarded call sequences. -/
inductive ReachableOk : StoreState → Prop
  | init : ReachableOk initialState
  | step {s : StoreState} (op : Op) :
      ReachableOk s → okOp s op → ReachableOk (applyOp s op)

theorem undo_of_ne (s : StoreState) (h : ¬s.undoStack = []) :
    undo s =
      { objects := (s.undoStack.getLast?).getD []
        selectedId := none
        undoStack := s.undoStack.dropLast
        redoStack := s.redoStack ++ [s.objects] } := by
  rw [undo, if_neg]
  simpa [List.isEmpty_iff] using h

theorem redo_of_ne (s : StoreState) (h : ¬s.redoStack = []) :
    redo s =
      { objects := (s.redoStack.getLast?).getD []
        selectedId := none
        undoStack := s.undoStack ++ [s.objects]
        redoStack := s.redoStack.dropLast } := by
  rw [redo, if_neg]
  simpa [List.isEmpty_iff] using h

theorem selInv_step {s : StoreState} (op : Op) (hs : SelInv s) (hok : okOp s op) :
    SelInv (applyOp s op) := by
  cases op with
  | add o =>
      rcases hs with h | ⟨o2, ho2, hid⟩
      · exact Or.inl h
      · exact Or.inr ⟨o2, by
          show o2 ∈ s.objects ++ [o]
          exact List.mem_append_left _ ho2, hid⟩
  | update tid p =>
      rcases hs with h | ⟨o2, ho2, hid⟩
      · exact Or.inl h
      · refine Or.inr ⟨if o2.id = tid then applyPatch o2 p else o2,
          List.mem_map_of_mem _ ho2, ?_⟩
        have hok2 : p.id = none := hok
        have hid2 : (if o2.id = tid then applyPatch o2 p else o2).id = o2.id := by
          split
          · simp [applyPatch, hok2]
          · rfl
        rw [hid2]
        exact hid
  | remove tid =>
      by_cases hsel : s.selectedId = some tid
      · exact Or.inl (by simp [applyOp, removeObject, pushUndo, hsel])
      · rcases hs with h | ⟨o2, ho2, hid⟩
        · exact Or.inl (by simp [applyOp, removeObject, pushUndo, hsel, h])
        · refine Or.inr ⟨o2, ?_, ?_⟩
          · show o2 ∈ List.filter _ s.objects
            refine List.mem_filter.mpr ⟨ho2, ?_⟩
            simp only [bne_iff_ne, ne_eq, decide_eq_true_eq]
            intro hcontra
            exact hsel (by rw [← hid, hcontra])
          · show some o2.id = (if s.selectedId = some tid then none else s.selectedId)
            rw [if_neg hsel]
            exact hid
  | sel tid =>
      cases tid with
      | none => exact Or.inl rfl
      | some t =>
          obtain ⟨o2, ho2, hid⟩ := hok
          exact Or.inr ⟨o2, ho2, by simp [applyOp, select, hid]⟩
  | undoOp =>
      by_cases he : s.undoStack = []
      · show SelInv (undo s)
        rw [undo_of_empty s he]; exact hs
      · show SelInv (undo s)
        rw [undo_of_ne s he]; exact Or.inl rfl
  | redoOp =>
      by_cases he : s.redoStack = []
      · show SelInv (redo s)
        rw [redo_of_empty s he]; exact hs
      · show SelInv (redo s)
        rw [redo_of_ne s he]; exact Or.inl rfl

/-- C2 counterexample: the claim quantifies over arbitrary operation
sequences, but `select` does not validate its argument: after the single
call `select("ghost")` from the empty scene — a sequence of the listed
store operations — `selectedId` is `"ghost"` while the object set is
empty, so `selectedId` matches no object in the set. -/
theorem selection_invariant_counterexample :
    (runOps [Op.sel (some "ghost")]).selectedId = some "ghost"
    ∧ (runOps [Op.sel (some "ghost")]).objects = []
    ∧ ¬SelInv (runOps [Op.sel (some "ghost")]) :=
  ⟨rfl, rfl, by decide⟩

/-- C2 (amended): in every state reachable by guarded sequences — each
`select` argument is null or the id of an object present at that moment,
and no update patch carries an `id` key — `selectedId` is null or the id
of some object in the set; and (for arbitrary states) `removeObject`
applied to the current non-null `selectedId` always clears the
selection. -/
theorem selection_invariant :
    (∀ s : StoreState, ReachableOk s → SelInv s)
    ∧ (∀ (s : StoreState) (tid : String), s.selectedId = some tid →
        (removeObject s tid).selectedId = none) := by
  constructor
  · intro s h
    induction h with
    | init => exact Or.inl rfl
    | step op _ hok ih => exact selInv_step op ih hok
  · intro s tid h
    simp [removeObject, pushUndo, h]

/-- Witness for C2 (amended): the invariant at the reachable state after
one guarded `addObject objB`, and the selection clearing at a concrete
state with `objB` selected. -/
theorem selection_invariant_witness :
    SelInv (applyOp initialState (Op.add objB))
    ∧ (removeObject
        { objects := [objB], selectedId := some "b", undoStack := [], redoStack := [] }
        "b").selectedId = none :=
  ⟨selection_invariant.1 _ (ReachableOk.step (Op.add objB) ReachableOk.init trivial),
   selection_invariant.2
     { objects := [objB], selectedId := some "b", undoStack := [], redoStack := [] }
     "b" rfl⟩

/-! ### Undo/redo round trip -/

/-- C4 counterexample: the claim quantifies over any state, but when
`undoStack` is empty and `redoStack` is not, `undo()` is a no-op and the
following `redo()` still rewrites the object set.  The state is reachable:
add `objA`, add `objB`, undo twice; then `undoStack` is empty, the object
set is `[objA]`, and `undo()` followed by `redo()` yields `[objA, objB]`. -/
theorem undo_redo_roundtrip_counterexample :
    (redo (undo (runOps [Op.add objA, Op.add objB, Op.undoOp, Op.undoOp]))).objects
      ≠ (runOps [Op.add objA, Op.add objB, Op.undoOp, Op.undoOp]).objects := by
  have h1 : (redo (undo (runOps [Op.add objA, Op.add objB, Op.undoOp, Op.undoOp]))).objects
      = [objA, objB] := rfl
  have h2 : (runOps [Op.add objA, Op.add objB, Op.undoOp, Op.undoOp]).objects
      = [objA] := rfl
  rw [h1, h2]
  intro hcontra
  have := congrArg List.length hcontra
  simp at this

/-- C4 (amended): whenever `undoStack` is non-empty — so the `undo()`
actually performs a restore — `redo()` immediately after `undo()` with no
intervening mutation restores the exact object set present immediately
before the `undo()` call. -/
theorem undo_redo_roundtrip (s : StoreState) (h : s.undoStack ≠ []) :
    (redo (undo s)).objects = s.objects := by
  rw [undo_of_ne s h]
  rw [redo_of_ne _ (by simp)]
  simp

/-- Witness for C4 (amended) at the reachable state following one
`addObject`, whose `undoStack` holds one snapshot. -/
theorem undo_redo_roundtrip_witness :
    (redo (undo (runOps [Op.add objB]))).objects = (runOps [Op.add objB]).objects :=
  undo_redo_roundtrip (runOps [Op.add objB]) (by decide)

/-! ### Immutability of id and size -/

/-- C9 counterexample: the claim quantifies over every patch, but the JS
shallow merge `{...o, ...patch}` applies any key the patch carries,
including `id` (and likewise `size`): on the scene `[objB]` (whose only
object has id "b"), `updateObject "b" {id := "zzz"}` rewrites that
object's id to "zzz". -/
theorem id_size_immutable_counterexample :
    objB.id = "b"
    ∧ (updateObject
        { objects := [objB], selectedId := none, undoStack := [], redoStack := [] }
        "b" { id := some "zzz" }).objects.map Obj.id = ["zzz"] :=
  ⟨rfl, rfl⟩

/-- C9 (amended): provided the patch names neither `id` nor `size`,
`updateObject` leaves every object's id and size unchanged (pointwise);
and no other store operation rewrites an object's fields — `addObject`
appends and keeps prior objects verbatim, every object surviving
`removeObject` is one of the previous objects, `select` does not touch
the object set, and `undo`/`redo` either keep the object set or replace
it wholesale by a stored snapshot. -/
theorem id_size_immutable :
    (∀ (s : StoreState) (tid : String) (p : Patch), p.id = none → p.size = none →
      List.Forall₂ (fun o o2 => o2.id = o.id ∧ o2.size = o.size)
        s.objects (updateObject s tid p).objects)
    ∧ (∀ (s : StoreState) (o : Obj), (addObject s o).objects = s.objects ++ [o])
    ∧ (∀ (s : StoreState) (tid : String) (o : Obj),
        o ∈ (removeObject s tid).objects → o ∈ s.objects)
    ∧ (∀ (s : StoreState) (t : Option String), (select s t).objects = s.objects)
    ∧ (∀ s : StoreState, (undo s).objects = s.objects ∨ (undo s).objects ∈ s.undoStack)
    ∧ (∀ s : StoreState, (redo s).objects = s.objects ∨ (redo s).objects ∈ s.redoStack) := by
  refine ⟨?_, fun s o => rfl, ?_, fun s t => rfl, ?_, ?_⟩
  · intro s tid p hid hsize
    have h1 : (updateObject s tid p).objects
        = s.objects.map (fun o => if o.id = tid then applyPatch o p else o) := rfl
    rw [h1, List.forall₂_map_right_iff, List.forall₂_same]
    intro a _
    split
    · simp [applyPatch, hid, hsize]
    · exact ⟨rfl, rfl⟩
  · intro s tid o ho
    exact List.mem_of_mem_filter ho
  · intro s
    by_cases he : s.undoStack = []
    · exact Or.inl (by rw [undo_of_empty s he])
    · right
      rw [undo_of_ne s he]
      obtain ⟨a, ha⟩ := Option.ne_none_iff_exists'.mp
        (fun hn => he (List.getLast?_eq_none_iff.mp hn))
      simp only [ha, Option.getD_some]
      exact List.mem_of_mem_getLast? ha
  · intro s
    by_cases he : s.redoStack = []
    · exact Or.inl (by rw [redo_of_empty s he])
    · right
      rw [redo_of_ne s he]
      obtain ⟨a, ha⟩ := Option.ne_none_iff_exists'.mp
        (fun hn => he (List.getLast?_eq_none_iff.mp hn))
      simp only [ha, Option.getD_some]
      exact List.mem_of_mem_getLast? ha

/-- Witness for C9 (amended): a color-only patch on the scene `[objB]`
keeps the object's id "b" and its size. -/
theorem id_size_immutable_witness :
    List.Forall₂ (fun o o2 => o2.id = o.id ∧ o2.size = o.size)
      [objB]
      (updateObject
        { objects := [objB], selectedId := none, undoStack := [], redoStack := [] }
        "b" { color := some "#123456" }).objects :=
  id_size_immutable.1
    { objects := [objB], selectedId := none, undoStack := [], redoStack := [] }
    "b" { color := some "#123456" } rfl rfl

/-! ### Mutations on an absent id still grow the history -/

/-- C10 counterexample: the claim says `removeObject targetId` with
`targetId` absent from the object set leaves `selectedId` unchanged, but
`select` stores unvalidated ids, so `selectedId` can hold an id no object
carries: after `select("ghost")` from the empty scene, `removeObject
"ghost"` — whose target is absent — resets `selectedId` from `"ghost"`
to null. -/
theorem noop_mutation_counterexample :
    (runOps [Op.sel (some "ghost")]).objects = []
    ∧ (runOps [Op.sel (some "ghost")]).selectedId = some "ghost"
    ∧ (removeObject (runOps [Op.sel (some "ghost")]) "ghost").selectedId = none :=
  ⟨rfl, rfl, rfl⟩

/-- C10 (amended): for every state and every `targetId` absent from the
object set, `updateObject` and `removeObject` leave the object set
unchanged, still append one snapshot of the unchanged object set onto
`undoStack`, and clear `redoStack`; `updateObject` leaves `selectedId`
unchanged, and `removeObject` leaves it unchanged unless it equals
`some targetId` (possible despite the absence, since `select` stores
unvalidated ids), in which case it is cleared. -/
theorem noop_mutations_grow_history (s : StoreState) (tid : String) (p : Patch)
    (habs : ∀ o ∈ s.objects, o.id ≠ tid) :
    ((updateObject s tid p).objects = s.objects
      ∧ (updateObject s tid p).selectedId = s.selectedId
      ∧ (updateObject s tid p).undoStack = s.undoStack ++ [s.objects]
      ∧ (updateObject s tid p).redoStack = [])
    ∧ ((removeObject s tid).objects = s.objects
      ∧ (s.selectedId ≠ some tid → (removeObject s tid).selectedId = s.selectedId)
      ∧ (s.selectedId = some tid → (removeObject s tid).selectedId = none)
      ∧ (removeObject s tid).undoStack = s.undoStack ++ [s.objects]
      ∧ (removeObject s tid).redoStack = []) := by
  have hu := update_objects_of_absent s tid p habs
  have hr := remove_objects_of_absent s tid habs
  refine ⟨⟨hu, rfl, ?_, rfl⟩, hr, fun h => ?_, fun h => ?_, ?_, rfl⟩
  · show s.undoStack ++ [(updateObject s tid p).objects] = s.undoStack ++ [s.objects]
    rw [hu]
  · show (if s.selectedId = some tid then none else s.selectedId) = s.selectedId
    rw [if_neg h]
  · show (if s.selectedId = some tid then none else s.selectedId) = none
    rw [if_pos h]
  · show s.undoStack ++ [(removeObject s tid).objects] = s.undoStack ++ [s.objects]
    rw [hr]

/-- Witness for C10 (amended): updating and removing the absent id
"missing" on the scene `[objB]` leaves the set `[objB]`, pushes that set
onto `undoStack`, clears `redoStack`, and keeps the null selection. -/
theorem noop_mutations_grow_history_witness :
    (updateObject { objects := [objB], selectedId := none, undoStack := [], redoStack := [] }
      "missing" { color := some "#000" }).undoStack = [] ++ [[objB]]
    ∧ (removeObject { objects := [objB], selectedId := none, undoStack := [], redoStack := [] }
      "missing").selectedId = none :=
  ⟨(noop_mutations_grow_history
      { objects := [objB], selectedId := none, undoStack := [], redoStack := [] }
      "missing" { color := some "#000" } (by decide)).1.2.2.1,
   (noop_mutations_grow_history
      { objects := [objB], selectedId := none, undoStack := [], redoStack := [] }
      "missing" { color := some "#000" } (by decide)).2.2.1 (by decide)⟩

end RoomDesigner
